import Mathlib

/-!
Verification of the `envconfig` configuration binder.

The development shallowly embeds the binding engine of the
`vrischmann/envconfig` Go library: the key-derivation algorithm, the
environment-value lookup, the tag parser, the slice tokenizer, the
value-coercion dispatch and the recursive struct walker, together with the
entry-point validation of `Init` / `InitWithPrefix`.

Modelling conventions:

* Go strings are Lean `String`; all character work happens on `String.data`
  (a `List Char`), which matches Go's byte-wise handling for the ASCII
  inputs the library deals with.
* The process environment (`os.Getenv`) is a function
  `GoEnv := String → Option String`; `getenv` maps `none` to `""` exactly
  as `os.Getenv` reports an absent key by the empty string.
* Go's `reflect` values are an explicit value tree `V`; Go types are the
  mutually-inductive `Ty` / `Fields`.  `CanSet` (exportedness) is the
  `settable` flag carried by each field and threaded through the walker.
  A Go runtime panic (e.g. `reflect` `NumField` on a non-struct, `Set` on
  a non-settable value, string slicing out of range) is the explicit
  outcome `Out.panicked`.
* Fallible operations return `Out α` with `ok` / `err` / `panicked`.
* `time.Duration` and floating-point leaves of the coercion dispatch are
  omitted from the type model: no claim mentions them, the duration parser
  and `strconv.ParseFloat` are orthogonal to every claim, and floating
  point is not faithfully representable here.  The custom-unmarshal
  capability is modelled by the constructor `Ty.unmT`, which carries the
  (struct-shaped) underlying fields and the `Unmarshal` behaviour as a
  predicate on the raw string; value and pointer receivers behave
  identically through `parseWithUnmarshaler`, so they share one model.
* Several functions of the current revision of `envconfig.go` are absent
  from the retrieved sources (only their tests and older revisions are):
  `makeAllPossibleKeys`, the multi-key `readValue`, the unmarshaler-aware
  struct walker, and the slice tokenizer file.  Those definitions are
  modelled from the specification and say so in their doc comments; all
  other definitions are direct translations of `envconfig.go`.
-/

/-! ## Characters and strings -/

/-- Uppercase mapping of one character, as `strings.ToUpper` acts on ASCII. -/
def upChar (c : Char) : Char := c.toUpper

/-- Lowercase mapping of one character, as `strings.ToLower` acts on ASCII. -/
def lowChar (c : Char) : Char := c.toLower

/-- Byte-wise lexicographic comparison of two character lists, matching the
string order used by Go's `sort.Strings` on ASCII data. -/
def lexLe : List Char → List Char → Bool
  | [], _ => true
  | _ :: _, [] => false
  | a :: as, b :: bs =>
    if a.toNat < b.toNat then true
    else if b.toNat < a.toNat then false
    else lexLe as bs

/-- String order induced by `lexLe`, used to sort candidate keys. -/
def strLe (a b : String) : Prop := lexLe a.data b.data = true

instance : DecidableRel strLe := fun a b => by
  unfold strLe; infer_instance

/-- Splitting a character list on a single separator character; mirrors
`strings.Split` with a one-character separator (so the empty input yields
one empty field, like Go). -/
def splitCh (sep : Char) : List Char → List (List Char)
  | [] => [[]]
  | c :: rest =>
    let r := splitCh sep rest
    if c = sep then [] :: r
    else match r with
      | [] => [[c]]
      | t :: ts => (c :: t) :: ts

/-- Splitting a string on a one-character separator, as `strings.Split`. -/
def splitStr (sep : Char) (s : String) : List String :=
  (splitCh sep s.data).map String.mk

/-! ## Errors and outcomes -/

/-- Errors surfaced by the binder, one constructor per distinct error shape
produced in `envconfig.go` (payloads carry the data interpolated into the
corresponding Go error message). -/
inductive Err : Type where
  /-- Error of `Init` on a non-pointer argument. -/
  | notAPointer
  /-- Error of `Init` when the pointee is neither struct nor pointer. -/
  | invalidValueKind
  /-- Error `ErrUnexportedField` from `parseValue` on a non-settable value. -/
  | unexportedField
  /-- Error of `readValue` naming every candidate key that was probed. -/
  | keyNotFound (keys : List String)
  /-- Error of `strconv` parsers on malformed input (`ErrSyntax`). -/
  | badNumber (input : String)
  /-- Error of `strconv` parsers on out-of-range input (`ErrRange`). -/
  | numRange (input : String)
  /-- Error of `strconv.ParseBool` on an unrecognised spelling. -/
  | badBool (input : String)
  /-- Error of `base64.StdEncoding.DecodeString` on invalid input. -/
  | badBase64 (input : String)
  /-- Error returned by a custom `Unmarshal` implementation. -/
  | unmarshalError (input : String)
  /-- Error of `parseStruct` on an empty token list (dead branch in Go). -/
  | structTokenEmpty
  /-- Error of `parseStruct` naming the token count and the field count. -/
  | fieldCountMismatch (got expected : Nat)
  /-- Error of `parseValue` on an unsupported element kind. -/
  | unsupportedKind
deriving DecidableEq

/-- Outcome of a Go computation: a value, a returned error, or a runtime
panic (which in Go would unwind rather than be returned). -/
inductive Out (α : Type) : Type where
  | ok (a : α)
  | err (e : Err)
  | panicked (msg : String)
deriving DecidableEq

/-- Mapping over the success value of an outcome. -/
def Out.map {α β : Type} (f : α → β) : Out α → Out β
  | .ok a => .ok (f a)
  | .err e => .err e
  | .panicked m => .panicked m

/-! ## Tag parser (translated from `parseTag` in `envconfig.go`) -/

/-- Parsed form of one `envconfig:"..."` struct tag. -/
structure Tag : Type where
  customName : String
  optional : Bool
  skip : Bool
  defaultVal : String
deriving DecidableEq

/-- Tag with every option unset, as the zero `tag{}` literal in Go. -/
def Tag.empty : Tag := ⟨"", false, false, ""⟩

/-- Classification of one comma-separated tag token, as the `switch` inside
`parseTag`: `-` sets skip, `optional` sets optional, a `default=` token
sets the default value, anything else becomes the custom name. -/
def applyTagToken (tg : Tag) (v : String) : Tag :=
  if v = "-" then { tg with skip := true }
  else if v = "optional" then { tg with optional := true }
  else if "default=".data.isPrefixOf v.data then
    { tg with defaultVal := String.mk (v.data.drop 8) }
  else { tg with customName := v }

/-- Translation of `parseTag`: split the raw tag on `,` and fold the token
classification over the pieces (later tokens of the same kind win). -/
def parseTag (s : String) : Tag :=
  (splitStr ',' s).foldl applyTagToken Tag.empty

/-! ## Traversal context and key derivation -/

/-- Traversal context, as the `context` struct of `envconfig.go`: the dotted
name path, the custom-name override, the inherited optional flag and the
tag default value. -/
structure Ctx : Type where
  name : String
  customName : String
  optional : Bool
  defaultVal : String
deriving DecidableEq

/-- Translation of `combineName`: join a parent path and a field name with
a dot, dropping the dot when the parent path is empty. -/
def combineName (parentName name : String) : String :=
  if parentName = "" then name else parentName ++ "." ++ name

/-- Word-boundary explosion of a dotted path, modelled from the spec:
every `.` becomes `_`, and an `_` is inserted before every upper-case
letter that is not the first character, is not immediately preceded by an
inserted underscore, and has a lower-case letter immediately before or
after it.  The state is the previous original character (none at the
start) and whether the last emitted character is an underscore. -/
def explodeAux (sep : Char) : List Char → Option Char → Bool → List Char
  | [], _, _ => []
  | c :: rest, prev, lastUnderscore =>
    if c = '.' then sep :: explodeAux sep rest (some c) true
    else
      let prevLower := match prev with
        | some p => p.isLower
        | none => false
      let nextLower := match rest with
        | n :: _ => n.isLower
        | [] => false
      if c.isUpper && prev.isSome && !lastUnderscore && (prevLower || nextLower)
      then sep :: c :: explodeAux sep rest (some c) false
      else c :: explodeAux sep rest (some c) (c = sep)

/-- Boundary-exploded spelling of a dotted path (see `explodeAux`). -/
def explodeName (s : String) : List Char :=
  explodeAux '_' s.data none false

/-- Plain spelling of a dotted path: every `.` replaced by `_`, nothing
else changed, as `strings.Replace(name, ".", "_", -1)`. -/
def plainName (s : String) : List Char :=
  s.data.map fun c => if c = '.' then '_' else c

/-- Four raw candidate spellings computed for a dotted path before
deduplication: exploded upper, exploded lower, plain upper, plain lower. -/
def rawCandidates (name : String) : List String :=
  [ String.mk ((explodeName name).map upChar)
  , String.mk ((explodeName name).map lowChar)
  , String.mk ((plainName name).map upChar)
  , String.mk ((plainName name).map lowChar) ]

/-- Deduplication followed by a lexicographic insertion sort, matching the
map-based deduplication and `sort.Strings` call of `makeAllPossibleKeys`. -/
def dedupSort (l : List String) : List String :=
  l.dedup.insertionSort strLe

/-- Modelled from the spec: `makeAllPossibleKeys` is absent from the
retrieved sources (only its test `TestMakeAllPossibleKeys` is present).
Per the spec, a non-empty custom name short-circuits to exactly that one
key; otherwise the four candidate spellings of the dotted path are
deduplicated and sorted lexicographically. -/
def makeAllPossibleKeys (ctx : Ctx) : List String :=
  if ctx.customName ≠ "" then [ctx.customName]
  else dedupSort (rawCandidates ctx.name)

/-! ## Environment lookup -/

/-- External environment capability: a partial map from key to value. -/
def GoEnv : Type := String → Option String

/-- Behaviour of `os.Getenv`: an absent key reads as the empty string. -/
def getenv (env : GoEnv) (key : String) : String :=
  (env key).getD ""

/-- Environment built from an association list, for concrete witnesses. -/
def envOf (l : List (String × String)) : GoEnv :=
  fun k => (l.find? fun p => p.1 = k).map Prod.snd

/-- Pointwise update of an environment at one key. -/
def updateEnv (env : GoEnv) (key : String) (v : Option String) : GoEnv :=
  fun k => if k = key then v else env k

/-- Probing loop of `readValue`: the value of the first candidate key whose
environment value is non-empty, or the empty string when every candidate
reads empty. -/
def firstNonEmpty (env : GoEnv) : List String → String
  | [] => ""
  | k :: ks =>
    let s := getenv env k
    if s ≠ "" then s else firstNonEmpty env ks

/-- Modelled from the spec: the current `readValue` (probing all candidate
keys) is absent from the retrieved sources; the older revision present in
`src/envconfig.go` probes a single key but keeps the same fallback
structure.  Per the spec: probe every candidate in order taking the first
non-empty value; otherwise return a non-empty default (flagging that the
default-value separator regime applies); otherwise an optional field
yields an empty result with no error; otherwise fail with a key-not-found
error naming every probed key.  The returned flag is the "using default"
mark of the context. -/
def readValue (ctx : Ctx) (env : GoEnv) : Except Err (String × Bool) :=
  let keys := makeAllPossibleKeys ctx
  let s := firstNonEmpty env keys
  if s ≠ "" then .ok (s, false)
  else if ctx.defaultVal ≠ "" then .ok (ctx.defaultVal, true)
  else if ctx.optional then .ok ("", false)
  else .error (.keyNotFound keys)

/-! ## Types and values -/

/-- Static data of one struct field: its Go name, its `envconfig` tag
string, and whether the field is settable through reflection (i.e.
exported). -/
structure FieldMeta : Type where
  fname : String
  ftag : String
  settable : Bool
deriving DecidableEq

mutual
/-- Classification of a Go field type, mirroring the kinds dispatched over
by `envconfig.go`.  `byteT` is `uint8`, so `sliceT byteT` is the
`byteSliceType` special case.  `unmT` is a named type implementing the
`Unmarshaler` interface (value or pointer receiver): it carries its
struct-shaped underlying fields and its `Unmarshal` behaviour as a
predicate deciding which raw strings it accepts. -/
inductive Ty : Type where
  | boolT
  | intT
  | uintT
  | byteT
  | strT
  | sliceT (elem : Ty)
  | structT (fields : Fields)
  | ptrT (elem : Ty)
  | unmT (fields : Fields) (accepts : String → Bool)

/-- Field list of a struct type, in declaration order. -/
inductive Fields : Type where
  | nilF
  | consF (m : FieldMeta) (t : Ty) (rest : Fields)
end

/-- Number of fields, as `reflect` `NumField`. -/
def fieldsLen : Fields → Nat
  | .nilF => 0
  | .consF _ _ rest => fieldsLen rest + 1

/-- Runtime value tree mirroring `reflect.Value` for the modelled kinds.
A slice carries its elements and its capacity; a pointer is `none` when
nil; an unmarshaler value carries the raw string it last accepted (its
zero value is `none`). -/
inductive V : Type where
  | boolV (b : Bool)
  | intV (n : Int)
  | uintV (n : Nat)
  | byteV (n : Nat)
  | strV (s : String)
  | sliceV (elems : List V) (cap : Nat)
  | structV (fields : List V)
  | ptrV (v : Option V)
  | unmV (payload : Option String)

mutual
/-- Zero value of a type, as produced by `reflect.New`. -/
def zeroV : Ty → V
  | .boolT => .boolV false
  | .intT => .intV 0
  | .uintT => .uintV 0
  | .byteT => .byteV 0
  | .strT => .strV ""
  | .sliceT _ => .sliceV [] 0
  | .structT fs => .structV (zeroFields fs)
  | .ptrT _ => .ptrV none
  | .unmT _ _ => .unmV none

/-- Zero values of a field list. -/
def zeroFields : Fields → List V
  | .nilF => []
  | .consF _ t rest => zeroV t :: zeroFields rest
end

/-! ## Scalar parsers (translated from `strconv` as used by the source) -/

/-- Digits of a base-10 numeral; `none` when empty or containing a
non-digit, as `strconv` syntax checking. -/
def digitsToNat : List Char → Option Nat
  | [] => none
  | cs => go cs 0
where
  go : List Char → Nat → Option Nat
    | [], acc => some acc
    | c :: rest, acc =>
      if c.isDigit then go rest (acc * 10 + (c.toNat - 48))
      else none

/-- Translation of `strconv.ParseInt(str, 10, 64)`: an optional single sign
followed by at least one digit, range-checked against int64. -/
def parseIntGo (s : String) : Except Err Int :=
  let (neg, ds) : Bool × List Char :=
    match s.data with
    | '+' :: r => (false, r)
    | '-' :: r => (true, r)
    | r => (false, r)
  match digitsToNat ds with
  | none => .error (.badNumber s)
  | some n =>
    if neg then
      if n ≤ 2 ^ 63 then .ok (-(n : Int)) else .error (.numRange s)
    else
      if n ≤ 2 ^ 63 - 1 then .ok (n : Int) else .error (.numRange s)

/-- Translation of `strconv.ParseUint(str, 10, 64)`: digits only (no sign
permitted), range-checked against uint64. -/
def parseUintGo (s : String) : Except Err Nat :=
  match digitsToNat s.data with
  | none => .error (.badNumber s)
  | some n => if n ≤ 2 ^ 64 - 1 then .ok n else .error (.numRange s)

/-- Translation of `strconv.ParseBool`: the twelve accepted spellings. -/
def parseBoolGo (s : String) : Except Err Bool :=
  if s = "1" ∨ s = "t" ∨ s = "T" ∨ s = "TRUE" ∨ s = "true" ∨ s = "True"
  then .ok true
  else if s = "0" ∨ s = "f" ∨ s = "F" ∨ s = "FALSE" ∨ s = "false" ∨ s = "False"
  then .ok false
  else .error (.badBool s)

/-- Value of one standard base64 alphabet character. -/
def b64Val (c : Char) : Option Nat :=
  if 'A' ≤ c ∧ c ≤ 'Z' then some (c.toNat - 65)
  else if 'a' ≤ c ∧ c ≤ 'z' then some (c.toNat - 97 + 26)
  else if '0' ≤ c ∧ c ≤ '9' then some (c.toNat - 48 + 52)
  else if c = '+' then some 62
  else if c = '/' then some 63
  else none

/-- Translation of `base64.StdEncoding.DecodeString` on newline-free input:
quartets of alphabet characters with `=` padding allowed only in the final
quartet. -/
def b64Quartets : List Char → Option (List Nat)
  | [] => some []
  | a :: b :: c :: d :: rest => do
    let va ← b64Val a
    let vb ← b64Val b
    if d = '=' then
      if rest ≠ [] then none
      else if c = '=' then
        some [va * 4 + vb / 16]
      else do
        let vc ← b64Val c
        some [va * 4 + vb / 16, (vb % 16) * 16 + vc / 4]
    else do
      let vc ← b64Val c
      let vd ← b64Val d
      let tail ← b64Quartets rest
      some ([va * 4 + vb / 16, (vb % 16) * 16 + vc / 4, (vc % 4) * 64 + vd] ++ tail)
  | _ => none

/-- Base64 decoding of a string, ignoring carriage returns and newlines as
Go's decoder does. -/
def b64Decode (s : String) : Option (List Nat) :=
  b64Quartets (s.data.filter fun c => c ≠ '\r' ∧ c ≠ '\n')

/-! ## Slice tokenizer -/

/-- Modelled from the spec: the slice tokenizer file is absent from the
retrieved sources.  It splits on a single-character separator while a
brace-delimited span (tracked by a boolean, i.e. one level) is kept
atomic; braces themselves stay in the token; a trailing empty buffer
produces no final token.  The accumulator keeps the current token
reversed. -/
def tokenizeAux (sep : Char) : List Char → List Char → Bool → List String
  | [], buf, _ => if buf.isEmpty then [] else [String.mk buf.reverse]
  | c :: rest, buf, inBraces =>
    if c = '{' then tokenizeAux sep rest (c :: buf) true
    else if c = '}' then tokenizeAux sep rest (c :: buf) false
    else if c = sep ∧ ¬inBraces then
      String.mk buf.reverse :: tokenizeAux sep rest [] inBraces
    else tokenizeAux sep rest (c :: buf) inBraces

/-- Token list of a raw slice value for a given separator. -/
def tokenize (sep : Char) (s : String) : List String :=
  tokenizeAux sep s.data [] false

/-! ## Value coercion (translated from `parseValue` and helpers) -/

mutual
/-- Translation of `parseValue`: refuse non-settable values with
`ErrUnexportedField`, dispatch the custom-unmarshal capability first, then
switch on the kind.  A `uint8` leaf stores the parsed value truncated as
`reflect` `SetUint` does; a pointer is allocated and the pointee parsed
from the same raw string; a struct token has its first and last characters
stripped and the remainder split and matched against the field count (the
body of Go's `parseStruct`, inlined here; splitting on the active
separator regime is modelled from the spec — the retrieved old revision
hard-codes `,`); a slice in element position hits the unsupported-kind
default branch.  A token shorter than two characters makes the struct
case panic, as `token[1 : len(token)-1]` does in Go. -/
def parseValue (t : Ty) (settable : Bool) (s : String) (sep : Char) : Out V :=
  if ¬settable then .err .unexportedField
  else
    match t with
    | .unmT _ accepts =>
      if accepts s then .ok (.unmV (some s)) else .err (.unmarshalError s)
    | .boolT =>
      match parseBoolGo s with
      | .ok b => .ok (.boolV b)
      | .error e => .err e
    | .intT =>
      match parseIntGo s with
      | .ok n => .ok (.intV n)
      | .error e => .err e
    | .uintT =>
      match parseUintGo s with
      | .ok n => .ok (.uintV n)
      | .error e => .err e
    | .byteT =>
      match parseUintGo s with
      | .ok n => .ok (.byteV (n % 256))
      | .error e => .err e
    | .strT => .ok (.strV s)
    | .ptrT et => Out.map (fun x => V.ptrV (some x)) (parseValue et true s sep)
    | .structT fs =>
      if s.length < 2 then .panicked "slice bounds out of range"
      else
        let toks := splitStr sep (String.mk ((s.data.drop 1).dropLast))
        if toks.length = 0 then .err .structTokenEmpty
        else if toks.length ≠ fieldsLen fs then
          .err (.fieldCountMismatch toks.length (fieldsLen fs))
        else Out.map V.structV (parseFieldsPos fs toks sep)
    | .sliceT _ => .err .unsupportedKind

/-- Positional loop of `parseStruct`: coerce each sub-token into the
corresponding field, in declaration order, stopping at the first error.
Settability of each struct field is its exportedness. -/
def parseFieldsPos (fs : Fields) (toks : List String) (sep : Char) : Out (List V) :=
  match fs, toks with
  | .nilF, _ => .ok []
  | .consF _ _ _, [] => .ok []
  | .consF m t rest, tok :: trest =>
    match parseValue t m.settable tok sep with
    | .ok v => Out.map (v :: ·) (parseFieldsPos rest trest sep)
    | .err e => .err e
    | .panicked msg => .panicked msg
end

/-- Translation of `parseStruct`, standing alone: strip the first and last
characters of the token (a panic when the token is shorter than two
characters, and no check that they are braces), split the remainder on the
separator, require exactly as many sub-tokens as fields, and coerce
positionally. -/
def parseStructGo (fs : Fields) (token : String) (sep : Char) : Out (List V) :=
  if token.length < 2 then .panicked "slice bounds out of range"
  else
    let toks := splitStr sep (String.mk ((token.data.drop 1).dropLast))
    if toks.length = 0 then .err .structTokenEmpty
    else if toks.length ≠ fieldsLen fs then
      .err (.fieldCountMismatch toks.length (fieldsLen fs))
    else parseFieldsPos fs toks sep

/-- Appending loop of `setSliceField`: for each token a freshly constructed
zero element is coerced (`reflect.New(elType).Elem()` is settable) and
appended to the accumulator, stopping at the first error. -/
def setSliceGo (elem : Ty) (acc : List V) (toks : List String) (sep : Char) : Out (List V) :=
  match toks with
  | [] => .ok acc
  | tok :: rest =>
    match parseValue elem true tok sep with
    | .ok el => setSliceGo elem (acc ++ [el]) rest sep
    | .err e => .err e
    | .panicked msg => .panicked msg

/-- Capacity of the rebuilt slice after appending up to `finalLen` elements
to a slice created with capacity `origCap`; Go's growth policy is
abstracted to the lower bound that it is large enough. -/
def capAfter (origCap finalLen : Nat) : Nat := max origCap finalLen

/-- Translation of `setSliceField`: tokenize the raw string, start from
`reflect.MakeSlice(type, len, cap)` — a slice holding `origLen` zero
values of the element type with the original capacity — append one coerced
element per token, and finally `Set` the fresh slice into the field (a
panic when the field is not settable).  Only the length and capacity of
the original slice are consulted, never its elements. -/
def setSliceField (elem : Ty) (origLen origCap : Nat) (settable : Bool)
    (str : String) (sep : Char) : Out V :=
  match setSliceGo elem (List.replicate origLen (zeroV elem)) (tokenize sep str) sep with
  | .ok els =>
    if settable then .ok (.sliceV els (capAfter origCap els.length))
    else .panicked "reflect: reflect.Value.Set using unaddressable value"
  | .err e => .err e
  | .panicked msg => .panicked msg

/-- Translation of `parseBytesValue`: decode the raw string as standard
base64 and `SetBytes` the result (a panic when the field is not
settable). -/
def parseBytesValue (settable : Bool) (s : String) : Out V :=
  match b64Decode s with
  | none => .err (.badBase64 s)
  | some bs =>
    if settable then .ok (.sliceV (bs.map V.byteV) bs.length)
    else .panicked "reflect: reflect.Value.SetBytes using unaddressable value"

/-- Separator selected by the context regime: the default-value separator
`;` when the value came from a tag default, the ordinary `,` otherwise
(modelled from the spec's separator-regime description). -/
def sepFor (usingDefault : Bool) : Char := if usingDefault then ';' else ','

/-- Post-lookup dispatch of `setField`: a byte slice decodes as base64, any
other slice is rebuilt from tokens, everything else goes through
`parseValue`.  (A named slice type implementing `Unmarshaler` — the
`!isUnmarshaler` guard of the Go `switch` — is the constructor `unmT`
here, which takes the `parseValue` branch exactly as in Go.) -/
def setFieldParse (t : Ty) (settable : Bool) (v : V) (s : String) (sep : Char) : Out V :=
  match t, v with
  | .sliceT .byteT, _ => parseBytesValue settable s
  | .sliceT elem, .sliceV els cap => setSliceField elem els.length cap settable s sep
  | .sliceT _, _ => .panicked "ill-typed value"
  | _, _ => parseValue t settable s sep

/-- Translation of `setField`: look the value up; an empty result on an
optional field leaves the field untouched with no error; otherwise
dispatch on the type with the separator regime selected by whether the
default value was used. -/
def setField (t : Ty) (settable : Bool) (v : V) (ctx : Ctx) (env : GoEnv) : Out V :=
  match readValue ctx env with
  | .error e => .err e
  | .ok (s, usingDefault) =>
    if s.length = 0 ∧ ctx.optional then .ok v
    else setFieldParse t settable v s (sepFor usingDefault)

/-! ## Struct walker -/

mutual
/-- Walk of one field (the `doRead` switch of `readStruct`).  A nil pointer
field is allocated a zero pointee and a non-nil pointer keeps its existing
pointee — the nil check is modelled from the spec, the retrieved old
revision allocates unconditionally — and the walk descends into the
pointee with the same name and tag (pointer chains collapse).  A struct
field that does not implement the custom-unmarshal capability recurses
into the walker with the combined path and inherited optional flag (the
unmarshaler check is modelled from the spec and
`TestParseStructWithUnmarshaler`; the tag default of a struct field is
dead in the source and dropped here).  Every other type, including
`unmT`, is a leaf handled by `setField`. -/
def readField (t : Ty) (settable : Bool) (v : V) (pname fname : String)
    (tg : Tag) (popt : Bool) (env : GoEnv) : Out V :=
  match t, v with
  | .ptrT et, .ptrV inner =>
    match inner with
    | none =>
      if settable then
        Out.map (fun x => V.ptrV (some x)) (readField et settable (zeroV et) pname fname tg popt env)
      else .panicked "reflect: reflect.Value.Set using unaddressable value"
    | some x =>
      Out.map (fun y => V.ptrV (some y)) (readField et settable x pname fname tg popt env)
  | .ptrT _, _ => .panicked "ill-typed value"
  | .structT fs, .structV vs =>
    Out.map V.structV (readStruct fs vs (combineName pname fname) (popt || tg.optional) settable env)
  | .structT _, _ => .panicked "ill-typed value"
  | _, _ =>
    setField t settable v
      (Ctx.mk (combineName pname fname) tg.customName (popt || tg.optional) tg.defaultVal) env

/-- Translation of `readStruct`: walk the fields in declaration order,
parsing each tag, skipping `-` fields, and stopping at the first error.
`psettable` propagates the read-only flag of reflection: values reached
through an unexported field are themselves not settable. -/
def readStruct (fs : Fields) (vs : List V) (pname : String) (popt : Bool)
    (psettable : Bool) (env : GoEnv) : Out (List V) :=
  match fs, vs with
  | .nilF, _ => .ok []
  | .consF _ _ _, [] => .panicked "ill-typed value"
  | .consF m t rest, v :: vrest =>
    let tg := parseTag m.ftag
    if tg.skip then Out.map (v :: ·) (readStruct rest vrest pname popt psettable env)
    else
      match readField t (m.settable && psettable) v pname m.fname tg popt env with
      | .ok v' => Out.map (v' :: ·) (readStruct rest vrest pname popt psettable env)
      | .err e => .err e
      | .panicked msg => .panicked msg
end

/-! ## Entry points -/

/-- Translation of `InitWithPrefix`: the argument must be a pointer; its
referent is examined — a pointer referent is unconditionally overwritten
with a fresh allocation and the walk starts at its pointee (Go calls
`readStruct` on it without checking that it is a struct, so a pointee that
is not a struct panics inside `reflect` `NumField`); a struct referent is
walked in place; anything else, including the invalid referent of a nil
argument pointer, returns the invalid-value-kind error. -/
def goInitWith (t : Ty) (v : V) (pfx : String) (env : GoEnv) : Out V :=
  match t, v with
  | .ptrT et, .ptrV inner =>
    match inner with
    | none => .err .invalidValueKind
    | some ev =>
      match et, ev with
      | .ptrT et2, _ =>
        match et2 with
        | .structT fs =>
          Out.map (fun vs => V.ptrV (some (V.ptrV (some (V.structV vs)))))
            (readStruct fs (zeroFields fs) pfx false true env)
        | _ => .panicked "reflect: NumField of non-struct type"
      | .structT fs, .structV vs =>
        Out.map (fun vs' => V.ptrV (some (V.structV vs'))) (readStruct fs vs pfx false true env)
      | .structT _, _ => .panicked "ill-typed value"
      | _, _ => .err .invalidValueKind
  | _, _ => .err .notAPointer

/-- Translation of `Init`: bind with the empty prefix. -/
def goInit (t : Ty) (v : V) (env : GoEnv) : Out V :=
  goInitWith t v "" env

/-! ## Model checks against the repository's own tests -/

/-- Check of the first `TestMakeAllPossibleKeys` case. -/
theorem modelCheck_keys_camel :
    makeAllPossibleKeys (Ctx.mk "CassandraSslCert" "" false "") =
      ["CASSANDRASSLCERT", "CASSANDRA_SSL_CERT", "cassandra_ssl_cert", "cassandrasslcert"] := by
  decide

/-- Check of the acronym `TestMakeAllPossibleKeys` case. -/
theorem modelCheck_keys_acronym :
    makeAllPossibleKeys (Ctx.mk "CassandraSSLCert" "" false "") =
      ["CASSANDRASSLCERT", "CASSANDRA_SSL_CERT", "cassandra_ssl_cert", "cassandrasslcert"] := by
  decide

/-- Check of the dotted-acronym `TestMakeAllPossibleKeys` case. -/
theorem modelCheck_keys_dotted_acronym :
    makeAllPossibleKeys (Ctx.mk "Cassandra.SSLCert" "" false "") =
      ["CASSANDRA_SSLCERT", "CASSANDRA_SSL_CERT", "cassandra_ssl_cert", "cassandra_sslcert"] := by
  decide

/-- Check of the single-word `TestMakeAllPossibleKeys` case: the four
spellings collapse to two unique keys. -/
theorem modelCheck_keys_single_word :
    makeAllPossibleKeys (Ctx.mk "Name" "" false "") = ["NAME", "name"] := by
  decide

/-- Check of `TestParseStructWithUnmarshaler`: a struct-shaped type with
the custom-unmarshal capability binds as a leaf from `TEST_ENV_DATE`, both
as a value field and behind a nil pointer field. -/
theorem modelCheck_unmarshaler_test :
    (goInit
      (.ptrT (.structT (.consF ⟨"TestEnvDate", "", true⟩
        (.unmT .nilF (fun s => s = "2020-06-20")) .nilF)))
      (.ptrV (some (.structV [.unmV none])))
      (envOf [("TEST_ENV_DATE", "2020-06-20")]) =
      .ok (.ptrV (some (.structV [.unmV (some "2020-06-20")])))) ∧
    (goInit
      (.ptrT (.structT (.consF ⟨"TestEnvDate", "", true⟩
        (.ptrT (.unmT .nilF (fun s => s = "2020-06-20"))) .nilF)))
      (.ptrV (some (.structV [.ptrV none])))
      (envOf [("TEST_ENV_DATE", "2020-06-20")]) =
      .ok (.ptrV (some (.structV [.ptrV (some (.unmV (some "2020-06-20")))])))) := by
  exact ⟨rfl, rfl⟩

/-! ## Order lemmas for the candidate-key sort -/

/-- Totality of the byte-wise string order. -/
theorem lexLe_total (a : List Char) : ∀ b, lexLe a b = true ∨ lexLe b a = true := by
  induction a with
  | nil => intro b; left; rfl
  | cons x as ih =>
    intro b
    cases b with
    | nil => right; rfl
    | cons y bs =>
      rcases Nat.lt_trichotomy x.toNat y.toNat with h | h | h
      · left; simp [lexLe, h]
      · rcases ih bs with h2 | h2
        · left; simp [lexLe, h, h2]
        · right; simp [lexLe, h.symm, h2]
      · right; simp [lexLe, h]

/-- Transitivity of the byte-wise string order. -/
theorem lexLe_trans (a : List Char) :
    ∀ b c, lexLe a b = true → lexLe b c = true → lexLe a c = true := by
  induction a with
  | nil => intro b c _ _; rfl
  | cons x as ih =>
    intro b c hab hbc
    cases b with
    | nil => simp [lexLe] at hab
    | cons y bs =>
      cases c with
      | nil => simp [lexLe] at hbc
      | cons z cs =>
        simp only [lexLe] at hab hbc ⊢
        by_cases hxy : x.toNat < y.toNat
        · simp only [hxy, if_true] at hab
          by_cases hyz : y.toNat < z.toNat
          · simp [show x.toNat < z.toNat by omega]
          · by_cases hzy : z.toNat < y.toNat
            · simp only [hyz, if_false, hzy, if_true] at hbc
              exact absurd hbc (by simp)
            · simp [show x.toNat < z.toNat by omega]
        · by_cases hyx : y.toNat < x.toNat
          · simp only [hxy, if_false, hyx, if_true] at hab
            exact absurd hab (by simp)
          · by_cases hyz : y.toNat < z.toNat
            · simp [show x.toNat < z.toNat by omega]
            · by_cases hzy : z.toNat < y.toNat
              · simp only [hyz, if_false, hzy, if_true] at hbc
                exact absurd hbc (by simp)
              · have hxz : ¬x.toNat < z.toNat := by omega
                have hzx : ¬z.toNat < x.toNat := by omega
                simp only [hxy, hyx, if_false] at hab
                simp only [hyz, hzy, if_false] at hbc
                simp only [hxz, hzx, if_false]
                exact ih bs cs hab hbc

instance : IsTotal String strLe :=
  ⟨fun a b => lexLe_total a.data b.data⟩

instance : IsTrans String strLe :=
  ⟨fun a b c hab hbc => lexLe_trans a.data b.data c.data hab hbc⟩

/-- Sortedness of the deduplicated candidate list. -/
theorem dedupSort_sorted (l : List String) : List.Sorted strLe (dedupSort l) :=
  List.sorted_insertionSort strLe l.dedup

/-- Deduplication of the candidate list. -/
theorem dedupSort_nodup (l : List String) : (dedupSort l).Nodup :=
  (List.perm_insertionSort strLe l.dedup).symm.nodup (List.nodup_dedup l)

/-- Membership in the deduplicated sorted list matches the raw list. -/
theorem mem_dedupSort {a : String} {l : List String} : a ∈ dedupSort l ↔ a ∈ l := by
  rw [dedupSort, (List.perm_insertionSort strLe l.dedup).mem_iff]
  exact List.mem_dedup

/-! ## Lookup lemmas -/

/-- Emptiness of a string is emptiness of its length. -/
theorem strLength_zero_iff {s : String} : s.length = 0 ↔ s = "" := by
  constructor
  · intro h
    cases s with
    | mk data =>
      cases data with
      | nil => rfl
      | cons c cs => simp [String.length] at h
  · intro h
    subst h
    rfl

/-- Probing is blind to keys outside the candidate list: two environments
reading equal at every candidate probe identically. -/
theorem firstNonEmpty_congr {env env' : GoEnv} :
    ∀ ks : List String, (∀ k ∈ ks, getenv env k = getenv env' k) →
      firstNonEmpty env ks = firstNonEmpty env' ks := by
  intro ks
  induction ks with
  | nil => intro _; rfl
  | cons k rest ih =>
    intro h
    simp only [firstNonEmpty, h k (by simp)]
    rw [ih fun x hx => h x (by simp [hx])]

/-- Probing every candidate against an environment where all of them read
empty yields the empty string. -/
theorem firstNonEmpty_all_empty {env : GoEnv} :
    ∀ ks : List String, (∀ k ∈ ks, getenv env k = "") →
      firstNonEmpty env ks = "" := by
  intro ks
  induction ks with
  | nil => intro _; rfl
  | cons k rest ih =>
    intro h
    simp only [firstNonEmpty, h k (by simp)]
    simp [ih fun x hx => h x (by simp [hx])]

/-- The value of the first candidate that reads non-empty wins. -/
theorem firstNonEmpty_append_hit {env : GoEnv} :
    ∀ (ks1 : List String) (k : String) (ks2 : List String),
      (∀ k' ∈ ks1, getenv env k' = "") → getenv env k ≠ "" →
      firstNonEmpty env (ks1 ++ k :: ks2) = getenv env k := by
  intro ks1
  induction ks1 with
  | nil =>
    intro k ks2 _ hk
    simp [firstNonEmpty, hk]
  | cons k1 rest ih =>
    intro k ks2 h hk
    simp only [List.cons_append, firstNonEmpty, h k1 (by simp)]
    simp only [ne_eq, not_true_eq_false, if_false]
    exact ih k ks2 (fun x hx => h x (by simp [hx])) hk

/-- A candidate with a non-empty value makes the probe succeed. -/
theorem firstNonEmpty_mem_hit {env : GoEnv} :
    ∀ {ks : List String} {k : String}, k ∈ ks → getenv env k ≠ "" →
      firstNonEmpty env ks ≠ "" := by
  intro ks
  induction ks with
  | nil => intro k hk; simp at hk
  | cons k1 rest ih =>
    intro k hk hne
    simp only [firstNonEmpty]
    by_cases h1 : getenv env k1 ≠ ""
    · simp [h1]
    · simp only [h1, if_neg h1]
      rcases List.mem_cons.mp hk with rfl | hmem
      · exact absurd hne h1
      · simpa [h1] using ih hmem hne

/-- Lookup results are determined by the environment's values at the
candidate keys alone. -/
theorem readValue_congr (ctx : Ctx) {env env' : GoEnv}
    (h : ∀ k ∈ makeAllPossibleKeys ctx, getenv env k = getenv env' k) :
    readValue ctx env = readValue ctx env' := by
  simp only [readValue]
  rw [firstNonEmpty_congr (makeAllPossibleKeys ctx) h]

/-- Leaf classification of the walker: every type except pointers and
plain structs is handled by `setField` (slices included; `unmT` structs
are leaves by the unmarshaler precedence). -/
def isLeafTy : Ty → Bool
  | .ptrT _ => false
  | .structT _ => false
  | _ => true

/-! ## Claim theorems -/

/-- C1: for a field without custom-name override, key derivation computes
exactly four candidate spellings — the boundary-exploded spelling in upper
and lower case and the plain spelling in upper and lower case —
deduplicates and sorts them lexicographically, the lookup probes exactly
those candidates (it is blind to other keys, and a non-empty value under
any candidate is found), and `Cassandra.SslCert` derives the four keys
listed in the spec. -/
theorem claim1_keyDerivation (n : String) (opt : Bool) (dv : String) :
    (rawCandidates n).length = 4 ∧
    (∀ s, s ∈ makeAllPossibleKeys (Ctx.mk n "" opt dv) ↔ s ∈ rawCandidates n) ∧
    List.Sorted strLe (makeAllPossibleKeys (Ctx.mk n "" opt dv)) ∧
    (makeAllPossibleKeys (Ctx.mk n "" opt dv)).Nodup ∧
    (∀ env env' : GoEnv,
      (∀ k ∈ makeAllPossibleKeys (Ctx.mk n "" opt dv), getenv env k = getenv env' k) →
      readValue (Ctx.mk n "" opt dv) env = readValue (Ctx.mk n "" opt dv) env') ∧
    (∀ (env : GoEnv) (k : String), k ∈ makeAllPossibleKeys (Ctx.mk n "" opt dv) →
      getenv env k ≠ "" →
      ∃ s, readValue (Ctx.mk n "" opt dv) env = .ok (s, false) ∧ s ≠ "") ∧
    makeAllPossibleKeys (Ctx.mk "Cassandra.SslCert" "" false "") =
      ["CASSANDRA_SSLCERT", "CASSANDRA_SSL_CERT", "cassandra_ssl_cert", "cassandra_sslcert"] := by
  have hkeys : makeAllPossibleKeys (Ctx.mk n "" opt dv) = dedupSort (rawCandidates n) := by
    simp [makeAllPossibleKeys]
  refine ⟨rfl, ?_, ?_, ?_, ?_, ?_, by decide⟩
  · intro s
    rw [hkeys]
    exact mem_dedupSort
  · rw [hkeys]
    exact dedupSort_sorted _
  · rw [hkeys]
    exact dedupSort_nodup _
  · intro env env' h
    exact readValue_congr _ h
  · intro env k hk hne
    have hfne := firstNonEmpty_mem_hit hk hne
    refine ⟨firstNonEmpty env (makeAllPossibleKeys (Ctx.mk n "" opt dv)), ?_, hfne⟩
    simp only [readValue]
    rw [if_pos hfne]

/-- Witness for C1: with only `cassandra_ssl_cert` set, the lookup for the
path `Cassandra.SslCert` finds a non-empty value, and the derived keys are
exactly the four sorted spellings. -/
theorem claim1_keyDerivation_witness :
    (∃ s, readValue (Ctx.mk "Cassandra.SslCert" "" false "")
        (envOf [("cassandra_ssl_cert", "/etc/ssl/cert.pem")]) = .ok (s, false) ∧ s ≠ "") ∧
    makeAllPossibleKeys (Ctx.mk "Cassandra.SslCert" "" false "") =
      ["CASSANDRA_SSLCERT", "CASSANDRA_SSL_CERT", "cassandra_ssl_cert", "cassandra_sslcert"] :=
  ⟨(claim1_keyDerivation "Cassandra.SslCert" false "").2.2.2.2.2.1
      (envOf [("cassandra_ssl_cert", "/etc/ssl/cert.pem")]) "cassandra_ssl_cert"
      (by decide) (by decide),
    (claim1_keyDerivation "Cassandra.SslCert" false "").2.2.2.2.2.2⟩

/-- C2: candidates are probed in order and the first non-empty value wins;
an empty-string environment value behaves exactly like an absent key; with
no hit a non-empty default is returned (flagged as using the default);
otherwise an optional field gets an empty errorless result and `setField`
leaves the field value untouched; otherwise the lookup fails with a
key-not-found error naming every probed key. -/
theorem claim2_lookup (ctx : Ctx) (env : GoEnv) :
    (∀ ks1 k ks2, makeAllPossibleKeys ctx = ks1 ++ k :: ks2 →
      (∀ k' ∈ ks1, getenv env k' = "") → getenv env k ≠ "" →
      readValue ctx env = .ok (getenv env k, false)) ∧
    (∀ key, readValue ctx (updateEnv env key (some "")) =
      readValue ctx (updateEnv env key none)) ∧
    ((∀ k ∈ makeAllPossibleKeys ctx, getenv env k = "") → ctx.defaultVal ≠ "" →
      readValue ctx env = .ok (ctx.defaultVal, true)) ∧
    ((∀ k ∈ makeAllPossibleKeys ctx, getenv env k = "") → ctx.defaultVal = "" →
      ctx.optional = true →
      readValue ctx env = .ok ("", false) ∧
      ∀ (t : Ty) (st : Bool) (v : V), setField t st v ctx env = .ok v) ∧
    ((∀ k ∈ makeAllPossibleKeys ctx, getenv env k = "") → ctx.defaultVal = "" →
      ctx.optional = false →
      readValue ctx env = .error (.keyNotFound (makeAllPossibleKeys ctx))) := by
  refine ⟨?_, ?_, ?_, ?_, ?_⟩
  · intro ks1 k ks2 hsplit h1 h2
    simp only [readValue, hsplit]
    rw [firstNonEmpty_append_hit ks1 k ks2 h1 h2, if_pos h2]
  · intro key
    apply readValue_congr
    intro k _
    unfold getenv updateEnv
    by_cases hk : k = key <;> simp [hk]
  · intro hempty hd
    simp only [readValue]
    rw [firstNonEmpty_all_empty _ hempty]
    simp [hd]
  · intro hempty hd hopt
    have hrv : readValue ctx env = .ok ("", false) := by
      simp only [readValue]
      rw [firstNonEmpty_all_empty _ hempty]
      simp [hd, hopt]
    refine ⟨hrv, ?_⟩
    intro t st v
    simp only [setField, hrv]
    rw [if_pos ⟨rfl, hopt⟩]
  · intro hempty hd hopt
    simp only [readValue]
    rw [firstNonEmpty_all_empty _ hempty]
    simp [hd, hopt]

/-- Witness for C2: with `PG` set to the empty string the required lookup
for path `Pg` fails naming both probed keys; a default is returned when no
key hits; an optional absent field is left untouched by `setField`; and a
hit on the second candidate (`pg`) wins after the empty first one. -/
theorem claim2_lookup_witness :
    readValue (Ctx.mk "Pg" "" false "") (envOf [("PG", "")]) =
      .error (.keyNotFound ["PG", "pg"]) ∧
    readValue (Ctx.mk "Pg" "" false "5432") (envOf []) = .ok ("5432", true) ∧
    setField Ty.intT true (V.intV 3) (Ctx.mk "Pg" "" true "") (envOf []) = .ok (V.intV 3) ∧
    readValue (Ctx.mk "Pg" "" false "") (envOf [("pg", "v")]) = .ok ("v", false) := by
  refine ⟨?_, ?_, ?_, ?_⟩
  · have h := (claim2_lookup (Ctx.mk "Pg" "" false "") (envOf [("PG", "")])).2.2.2.2
      (by decide) (by decide) (by decide)
    simpa using h
  · exact (claim2_lookup (Ctx.mk "Pg" "" false "5432") (envOf [])).2.2.1
      (by decide) (by decide)
  · exact ((claim2_lookup (Ctx.mk "Pg" "" true "") (envOf [])).2.2.2.1
      (by decide) (by decide) (by decide)).2 Ty.intT true (V.intV 3)
  · have h := (claim2_lookup (Ctx.mk "Pg" "" false "") (envOf [("pg", "v")])).1
      ["PG"] "pg" [] (by decide) (by decide) (by decide)
    simpa using h

/-- C3: a field whose tag carries a custom name probes exactly that one
key, verbatim: the derived candidate list is the singleton of the custom
name, the lookup depends on the environment only at that key, and the
walker hands every leaf field to `setField` with the tag's custom name in
the context. -/
theorem claim3_customName (n cn : String) (opt : Bool) (dv : String) (hcn : cn ≠ "") :
    makeAllPossibleKeys (Ctx.mk n cn opt dv) = [cn] ∧
    (∀ env env' : GoEnv, getenv env cn = getenv env' cn →
      readValue (Ctx.mk n cn opt dv) env = readValue (Ctx.mk n cn opt dv) env') ∧
    (∀ (t : Ty) (st : Bool) (v : V) (pn fn : String) (tg : Tag) (popt : Bool) (env : GoEnv),
      isLeafTy t = true →
      readField t st v pn fn tg popt env =
        setField t st v
          (Ctx.mk (combineName pn fn) tg.customName (popt || tg.optional) tg.defaultVal) env) := by
  have hkeys : makeAllPossibleKeys (Ctx.mk n cn opt dv) = [cn] := by
    simp [makeAllPossibleKeys, hcn]
  refine ⟨hkeys, ?_, ?_⟩
  · intro env env' h
    apply readValue_congr
    intro k hk
    rw [hkeys] at hk
    simp only [List.mem_singleton] at hk
    subst hk
    exact h
  · intro t st v pn fn tg popt env hleaf
    cases t <;> first | rfl | simp [isLeafTy] at hleaf

/-- Witness for C3: the tag `default=1m,myTimeout` sends the walker to a
lookup probing exactly the key `myTimeout`. -/
theorem claim3_customName_witness :
    makeAllPossibleKeys (Ctx.mk "Timeout" "myTimeout" false "1m") = ["myTimeout"] ∧
    readField Ty.intT true (V.intV 0) "" "Timeout" (parseTag "default=1m,myTimeout") false
        (envOf []) =
      setField Ty.intT true (V.intV 0) (Ctx.mk "Timeout" "myTimeout" false "1m") (envOf []) :=
  ⟨(claim3_customName "Timeout" "myTimeout" false "1m" (by decide)).1,
    (claim3_customName "Timeout" "myTimeout" false "1m" (by decide)).2.2
      Ty.intT true (V.intV 0) "" "Timeout" (parseTag "default=1m,myTimeout") false
      (envOf []) rfl⟩

/-- Unfolding of `setField` when the lookup produced a non-empty value:
the optional-empty early return does not fire and the dispatch runs. -/
theorem setField_found (t : Ty) (st : Bool) (v : V) (ctx : Ctx) (env : GoEnv)
    {s : String} {uD : Bool}
    (hrv : readValue ctx env = .ok (s, uD)) (hs : s ≠ "") :
    setField t st v ctx env = setFieldParse t st v s (sepFor uD) := by
  simp only [setField, hrv]
  rw [if_neg fun h => hs (strLength_zero_iff.mp h.1)]

/-- C4: a field of a type with the custom-unmarshal capability is bound as
a leaf: with a value found, the walker invokes `Unmarshal` on the raw
string, the outcome never depends on the type's own struct-shaped fields
(so it is never walked field-by-field), and the same holds behind a
pointer to the type. -/
theorem claim4_unmarshalerLeaf (ufs ufs' : Fields) (accepts : String → Bool) (v : V)
    (pn fn : String) (tg : Tag) (popt : Bool) (env : GoEnv) (s : String) (uD : Bool)
    (hrv : readValue (Ctx.mk (combineName pn fn) tg.customName (popt || tg.optional)
        tg.defaultVal) env = .ok (s, uD))
    (hs : s ≠ "") :
    (readField (.unmT ufs accepts) true v pn fn tg popt env =
      if accepts s then .ok (.unmV (some s)) else .err (.unmarshalError s)) ∧
    (readField (.unmT ufs accepts) true v pn fn tg popt env =
      readField (.unmT ufs' accepts) true v pn fn tg popt env) ∧
    (readField (.ptrT (.unmT ufs accepts)) true (.ptrV none) pn fn tg popt env =
      if accepts s then .ok (.ptrV (some (.unmV (some s)))) else .err (.unmarshalError s)) := by
  have key : ∀ (fsx : Fields) (w : V),
      readField (.unmT fsx accepts) true w pn fn tg popt env =
        if accepts s then .ok (.unmV (some s)) else .err (.unmarshalError s) := by
    intro fsx w
    show setField (.unmT fsx accepts) true w
        (Ctx.mk (combineName pn fn) tg.customName (popt || tg.optional) tg.defaultVal) env = _
    rw [setField_found _ _ _ _ _ hrv hs]
    rfl
  refine ⟨key ufs v, by rw [key ufs v, key ufs' v], ?_⟩
  show Out.map (fun y => V.ptrV (some y))
      (readField (.unmT ufs accepts) true (zeroV (.unmT ufs accepts)) pn fn tg popt env) = _
  rw [key ufs]
  by_cases ha : accepts s <;> simp [ha, Out.map]

/-- Witness for C4: the `TestParseStructWithUnmarshaler` scenario — a
struct-shaped unmarshaler field is bound from `TEST_ENV_DATE` as a leaf. -/
theorem claim4_unmarshalerLeaf_witness :
    readField (.unmT .nilF (fun s => s = "2020-06-20")) true (.unmV none) "" "TestEnvDate"
        Tag.empty false (envOf [("TEST_ENV_DATE", "2020-06-20")]) =
      .ok (.unmV (some "2020-06-20")) := by
  have h := (claim4_unmarshalerLeaf .nilF .nilF (fun s => s = "2020-06-20") (.unmV none)
    "" "TestEnvDate" Tag.empty false (envOf [("TEST_ENV_DATE", "2020-06-20")])
    "2020-06-20" false rfl (by decide)).1
  rw [h]
  rfl

/-- Non-emptiness of `strings.Split`: there is always at least one piece. -/
theorem splitCh_ne_nil (sep : Char) (cs : List Char) : splitCh sep cs ≠ [] := by
  induction cs with
  | nil => simp [splitCh]
  | cons c rest ih =>
    simp only [splitCh]
    by_cases h : c = sep
    · simp [h]
    · simp only [h, if_false]
      cases hr : splitCh sep rest with
      | nil => simp
      | cons t ts => simp

/-- Positivity of the piece count of `strings.Split`. -/
theorem splitStr_length_pos (sep : Char) (s : String) : 0 < (splitStr sep s).length := by
  unfold splitStr
  rw [List.length_map]
  exact List.length_pos.mpr (splitCh_ne_nil sep s.data)

/-- C5 (amended): coercion of a struct-typed slice element strips the
token's first and last characters without validating that they are braces
(any wrapper characters yield the same result), splits the enclosed
content on the active separator into sub-tokens, fails with an error
naming the actual versus expected field count on a mismatch, and on a
match coerces the sub-tokens positionally in declaration order; the
element-position struct coercion agrees with the standalone `parseStruct`
translation. -/
theorem claim5_structToken (fs : Fields) (token : String) (sep : Char)
    (htok : 2 ≤ token.length) :
    (∀ (a b a' b' : Char) (inner : List Char), token.data = a :: inner ++ [b] →
      parseValue (.structT fs) true (String.mk (a' :: inner ++ [b'])) sep =
        parseValue (.structT fs) true token sep) ∧
    ((splitStr sep (String.mk ((token.data.drop 1).dropLast))).length ≠ fieldsLen fs →
      parseValue (.structT fs) true token sep =
        .err (.fieldCountMismatch
          (splitStr sep (String.mk ((token.data.drop 1).dropLast))).length (fieldsLen fs))) ∧
    ((splitStr sep (String.mk ((token.data.drop 1).dropLast))).length = fieldsLen fs →
      parseValue (.structT fs) true token sep =
        Out.map V.structV
          (parseFieldsPos fs (splitStr sep (String.mk ((token.data.drop 1).dropLast))) sep)) ∧
    parseValue (.structT fs) true token sep = Out.map V.structV (parseStructGo fs token sep) := by
  have hred : ∀ (tok : String), 2 ≤ tok.length →
      parseValue (.structT fs) true tok sep =
        if (splitStr sep (String.mk ((tok.data.drop 1).dropLast))).length ≠ fieldsLen fs then
          .err (.fieldCountMismatch
            (splitStr sep (String.mk ((tok.data.drop 1).dropLast))).length (fieldsLen fs))
        else Out.map V.structV
          (parseFieldsPos fs (splitStr sep (String.mk ((tok.data.drop 1).dropLast))) sep) := by
    intro tok hlen
    have hpos := splitStr_length_pos sep (String.mk ((tok.data.drop 1).dropLast))
    show (if tok.length < 2 then (Out.panicked "slice bounds out of range" : Out V)
      else if (splitStr sep (String.mk ((tok.data.drop 1).dropLast))).length = 0 then
        .err .structTokenEmpty
      else if (splitStr sep (String.mk ((tok.data.drop 1).dropLast))).length ≠ fieldsLen fs then
        .err (.fieldCountMismatch
          (splitStr sep (String.mk ((tok.data.drop 1).dropLast))).length (fieldsLen fs))
      else Out.map V.structV
        (parseFieldsPos fs (splitStr sep (String.mk ((tok.data.drop 1).dropLast))) sep)) = _
    rw [if_neg (by omega), if_neg (by omega)]
  refine ⟨?_, ?_, ?_, ?_⟩
  · intro a b a' b' inner hdata
    have hstrip : (token.data.drop 1).dropLast = inner := by
      rw [hdata]
      simp
    have hstrip' : ((String.mk (a' :: inner ++ [b'])).data.drop 1).dropLast = inner := by
      simp
    have hlen' : 2 ≤ (String.mk (a' :: inner ++ [b'])).length := by
      simp [String.length]
    rw [hred token htok, hred _ hlen', hstrip, hstrip']
  · intro hne
    rw [hred token htok, if_pos hne]
  · intro heq
    rw [hred token htok, if_neg (by omega)]
  · have hpos := splitStr_length_pos sep (String.mk ((token.data.drop 1).dropLast))
    rw [hred token htok]
    have hgo : parseStructGo fs token sep =
        if (splitStr sep (String.mk ((token.data.drop 1).dropLast))).length ≠ fieldsLen fs then
          .err (.fieldCountMismatch
            (splitStr sep (String.mk ((token.data.drop 1).dropLast))).length (fieldsLen fs))
        else parseFieldsPos fs (splitStr sep (String.mk ((token.data.drop 1).dropLast))) sep := by
      simp only [parseStructGo]
      rw [if_neg (by omega), if_neg (by omega)]
    rw [hgo]
    split_ifs <;> simp [Out.map]

/-- Witness for C5 (amended): the token `{1,2,3}` against a two-field
struct fails naming the actual count 3 and the expected count 2. -/
theorem claim5_structToken_witness :
    parseValue
      (.structT (.consF ⟨"A", "", true⟩ .intT (.consF ⟨"B", "", true⟩ .intT .nilF)))
      true "{1,2,3}" ',' = .err (.fieldCountMismatch 3 2) := by
  have h := (claim5_structToken
    (.consF ⟨"A", "", true⟩ .intT (.consF ⟨"B", "", true⟩ .intT .nilF))
    "{1,2,3}" ',' (by decide)).2.1 (by decide)
  simpa using h

/-- Counterexample for C5 as stated: a token that is not wrapped in braces
is accepted all the same — `x5y` coerces into a one-int-field struct
successfully, because `parseStruct` strips the first and last characters
without checking them. -/
theorem claim5_structToken_counterexample :
    parseValue (.structT (.consF ⟨"A", "", true⟩ .intT .nilF)) true "x5y" ',' =
      .ok (.structV [.intV 5]) ∧
    "x5y".data.head? ≠ some '{' ∧
    "x5y".data.getLast? ≠ some '}' :=
  ⟨rfl, by decide, by decide⟩

/-- Accumulator independence of the slice-append loop: appending to any
starting slice is the fresh result prefixed by that start. -/
theorem setSliceGo_acc (elem : Ty) (sep : Char) :
    ∀ (toks : List String) (acc : List V),
      setSliceGo elem acc toks sep = Out.map (acc ++ ·) (setSliceGo elem [] toks sep) := by
  intro toks
  induction toks with
  | nil => intro acc; simp [setSliceGo, Out.map]
  | cons tok rest ih =>
    intro acc
    simp only [setSliceGo]
    cases hp : parseValue elem true tok sep with
    | ok el =>
      dsimp only
      rw [ih (acc ++ [el]), ih ([] ++ [el])]
      cases setSliceGo elem [] rest sep <;> simp [Out.map]
    | err e => rfl
    | panicked m => rfl

/-- Dispatch of `setField` on a slice whose element type is not `byte`:
the slice branch of the `switch` runs with the original slice's length and
capacity only. -/
theorem setFieldParse_slice_nonbyte (elem : Ty) (hb : elem ≠ Ty.byteT)
    (els : List V) (cap : Nat) (st : Bool) (s : String) (sep : Char) :
    setFieldParse (.sliceT elem) st (.sliceV els cap) s sep =
      setSliceField elem els.length cap st s sep := by
  cases elem <;> first | rfl | exact absurd rfl hb

/-- C6 (amended): coercing a non-byte slice field tokenizes the raw string
and coerces each token into a freshly constructed element appended to a
freshly built slice; the fresh slice starts with a zero-valued prefix of
the original slice's length (`reflect.MakeSlice` is called with the
original length, not zero) and the original capacity as capacity hint, and
the result replaces the original entirely — it depends only on the
original slice's length and capacity, never on its elements. -/
theorem claim6_sliceRebuild (elem : Ty) (els : List V) (cap : Nat) (ctx : Ctx) (env : GoEnv)
    (hb : elem ≠ Ty.byteT) :
    (∀ s uD, readValue ctx env = .ok (s, uD) → s ≠ "" →
      setField (.sliceT elem) true (.sliceV els cap) ctx env =
        Out.map (fun fresh => V.sliceV (List.replicate els.length (zeroV elem) ++ fresh)
            (capAfter cap (els.length + fresh.length)))
          (setSliceGo elem [] (tokenize (sepFor uD) s) (sepFor uD))) ∧
    (∀ (els' : List V) s uD, readValue ctx env = .ok (s, uD) → s ≠ "" →
      els'.length = els.length →
      setField (.sliceT elem) true (.sliceV els cap) ctx env =
        setField (.sliceT elem) true (.sliceV els' cap) ctx env) := by
  have main : ∀ (l : List V) s uD, readValue ctx env = .ok (s, uD) → s ≠ "" →
      setField (.sliceT elem) true (.sliceV l cap) ctx env =
        Out.map (fun fresh => V.sliceV (List.replicate l.length (zeroV elem) ++ fresh)
            (capAfter cap (l.length + fresh.length)))
          (setSliceGo elem [] (tokenize (sepFor uD) s) (sepFor uD)) := by
    intro l s uD hrv hs
    rw [setField_found _ _ _ _ _ hrv hs, setFieldParse_slice_nonbyte elem hb]
    simp only [setSliceField]
    rw [setSliceGo_acc elem (sepFor uD) (tokenize (sepFor uD) s) (List.replicate l.length (zeroV elem))]
    cases setSliceGo elem [] (tokenize (sepFor uD) s) (sepFor uD) <;>
      simp [Out.map, capAfter]
  refine ⟨main els, ?_⟩
  intro els' s uD hrv hs hlen
  rw [main els s uD hrv hs, main els' s uD hrv hs, hlen]

/-- Witness for C6 (amended): a one-element original slice of capacity one
is rebuilt from the token `7` as a zero prefix of length one followed by
the freshly parsed element. -/
theorem claim6_sliceRebuild_witness :
    setField (.sliceT .intT) true (.sliceV [.intV 5] 1) (Ctx.mk "Workers" "" false "")
        (envOf [("WORKERS", "7")]) =
      .ok (.sliceV [.intV 0, .intV 7] 2) := by
  have h := (claim6_sliceRebuild .intT [.intV 5] 1 (Ctx.mk "Workers" "" false "")
    (envOf [("WORKERS", "7")]) (by simp)).1 "7" false rfl (by decide)
  rw [h]
  rfl

/-- Counterexample for C6 as stated: the original slice's length survives
into the result as a prefix of zero values — from a length-one original
and the single token `7` the code produces a two-element slice, not just
the freshly parsed elements. -/
theorem claim6_sliceRebuild_counterexample :
    setField (.sliceT .intT) true (.sliceV [.intV 5] 1) (Ctx.mk "Workers" "" false "")
        (envOf [("WORKERS", "7")]) = .ok (.sliceV [.intV 0, .intV 7] 2) ∧
    ([V.intV 0, V.intV 7].length ≠ [V.intV 7].length) :=
  ⟨rfl, by decide⟩

/-- C7: the walker allocates a zero-valued pointee only for a nil pointer
field, descends into the existing pointee of a non-nil pointer field
unchanged, and collapses pointer chains transparently. -/
theorem claim7_pointerWalk (et : Ty) (x : V) (pn fn : String) (tg : Tag) (popt : Bool)
    (env : GoEnv) :
    (readField (.ptrT et) true (.ptrV none) pn fn tg popt env =
      Out.map (fun y => V.ptrV (some y)) (readField et true (zeroV et) pn fn tg popt env)) ∧
    (readField (.ptrT et) true (.ptrV (some x)) pn fn tg popt env =
      Out.map (fun y => V.ptrV (some y)) (readField et true x pn fn tg popt env)) ∧
    (readField (.ptrT (.ptrT et)) true (.ptrV (some (.ptrV (some x)))) pn fn tg popt env =
      Out.map (fun y => V.ptrV (some (V.ptrV (some y)))) (readField et true x pn fn tg popt env)) := by
  refine ⟨rfl, rfl, ?_⟩
  show Out.map (fun y => V.ptrV (some y))
      (readField (.ptrT et) true (.ptrV (some x)) pn fn tg popt env) = _
  show Out.map (fun y => V.ptrV (some y))
      (Out.map (fun y => V.ptrV (some y)) (readField et true x pn fn tg popt env)) = _
  cases readField et true x pn fn tg popt env <;> rfl

/-- C8 (amended): a non-pointer argument fails with the not-a-pointer
error; a pointer whose referent type is neither struct nor pointer fails,
returning normally, with the invalid-value-kind error (as does a nil
argument pointer, whose referent value is invalid); but a pointer to a
pointer is unconditionally reallocated and descended, so a pointer to a
pointer to a non-struct type panics inside reflection instead of
returning the invalid-value-kind error. -/
theorem claim8_entryValidation (t : Ty) (v : V) (pfx : String) (env : GoEnv) :
    ((∀ et, t ≠ Ty.ptrT et) → goInitWith t v pfx env = .err .notAPointer) ∧
    (∀ et inner, t = .ptrT et → v = .ptrV (some inner) →
      (∀ fs, et ≠ .structT fs) → (∀ et2, et ≠ .ptrT et2) →
      goInitWith t v pfx env = .err .invalidValueKind) ∧
    (∀ et, t = .ptrT et → v = .ptrV none → goInitWith t v pfx env = .err .invalidValueKind) ∧
    (∀ et2 inner, t = .ptrT (.ptrT et2) → v = .ptrV (some inner) →
      (∀ fs, et2 ≠ .structT fs) →
      goInitWith t v pfx env = .panicked "reflect: NumField of non-struct type") := by
  refine ⟨?_, ?_, ?_, ?_⟩
  · intro h
    cases t <;> first | exact absurd rfl (h _) | rfl
  · intro et inner ht hv hns hnp
    subst ht
    subst hv
    cases et <;> first | exact absurd rfl (hns _) | exact absurd rfl (hnp _) | rfl
  · intro et ht hv
    subst ht
    subst hv
    rfl
  · intro et2 inner ht hv hns
    subst ht
    subst hv
    cases et2 <;> first | exact absurd rfl (hns _) | rfl

/-- Witness for C8 (amended): the four referent shapes — a non-pointer, a
pointer to a string, a nil pointer, and a pointer to a pointer to an int. -/
theorem claim8_entryValidation_witness :
    goInitWith .intT (.intV 0) "" (envOf []) = .err .notAPointer ∧
    goInitWith (.ptrT .strT) (.ptrV (some (.strV ""))) "" (envOf []) = .err .invalidValueKind ∧
    goInitWith (.ptrT (.structT .nilF)) (.ptrV none) "" (envOf []) = .err .invalidValueKind ∧
    goInitWith (.ptrT (.ptrT .intT)) (.ptrV (some (.ptrV none))) "" (envOf []) =
      .panicked "reflect: NumField of non-struct type" :=
  ⟨(claim8_entryValidation .intT (.intV 0) "" (envOf [])).1
      (fun _ h => Ty.noConfusion h),
    (claim8_entryValidation (.ptrT .strT) (.ptrV (some (.strV ""))) "" (envOf [])).2.1
      .strT (.strV "") rfl rfl (fun _ h => Ty.noConfusion h) (fun _ h => Ty.noConfusion h),
    (claim8_entryValidation (.ptrT (.structT .nilF)) (.ptrV none) "" (envOf [])).2.2.1
      (.structT .nilF) rfl rfl,
    (claim8_entryValidation (.ptrT (.ptrT .intT)) (.ptrV (some (.ptrV none))) "" (envOf [])).2.2.2
      .intT (.ptrV none) rfl rfl (fun _ h => Ty.noConfusion h)⟩

/-- Counterexample for C8 as stated: a pointer to a pointer to an int does
not return the invalid-value-kind error normally — it panics in `reflect`
`NumField`. -/
theorem claim8_entryValidation_counterexample :
    goInitWith (.ptrT (.ptrT .intT)) (.ptrV (some (.ptrV none))) "" (envOf []) =
      .panicked "reflect: NumField of non-struct type" ∧
    goInitWith (.ptrT (.ptrT .intT)) (.ptrV (some (.ptrV none))) "" (envOf []) ≠
      .err .invalidValueKind := by
  refine ⟨rfl, ?_⟩
  intro h
  rw [show goInitWith (.ptrT (.ptrT .intT)) (.ptrV (some (.ptrV none))) "" (envOf []) =
      (.panicked "reflect: NumField of non-struct type" : Out V) from rfl] at h
  exact Out.noConfusion h

/-- C9: optionality suppresses only absence, never malformedness — when an
optional leaf field's lookup yields a non-empty string whose coercion
fails, the field reports that coercion error and the whole bind fails with
it. -/
theorem claim9_optionalMalformed (fn tgs pfx : String) (t : Ty) (env : GoEnv)
    (s : String) (uD : Bool) (e : Err)
    (hleaf : isLeafTy t = true)
    (hskip : (parseTag tgs).skip = false)
    (hopt : (parseTag tgs).optional = true)
    (hrv : readValue (Ctx.mk (combineName pfx fn) (parseTag tgs).customName true
        (parseTag tgs).defaultVal) env = .ok (s, uD))
    (hs : s ≠ "")
    (hparse : setFieldParse t true (zeroV t) s (sepFor uD) = .err e) :
    readField t true (zeroV t) pfx fn (parseTag tgs) false env = .err e ∧
    goInitWith (.ptrT (.structT (.consF ⟨fn, tgs, true⟩ t .nilF)))
        (.ptrV (some (.structV [zeroV t]))) pfx env = .err e := by
  have hfield : readField t true (zeroV t) pfx fn (parseTag tgs) false env = .err e := by
    have hroute : readField t true (zeroV t) pfx fn (parseTag tgs) false env =
        setField t true (zeroV t)
          (Ctx.mk (combineName pfx fn) (parseTag tgs).customName
            (false || (parseTag tgs).optional) (parseTag tgs).defaultVal) env := by
      cases t <;> first | rfl | simp [isLeafTy] at hleaf
    rw [hroute]
    have hor : (false || (parseTag tgs).optional) = true := by simp [hopt]
    rw [hor, setField_found _ _ _ _ _ hrv hs, hparse]
  refine ⟨hfield, ?_⟩
  show Out.map (fun vs' => V.ptrV (some (V.structV vs')))
      (readStruct (.consF ⟨fn, tgs, true⟩ t .nilF) [zeroV t] pfx false true env) = _
  simp only [readStruct]
  rw [if_neg (by simp [hskip])]
  simp only [Bool.and_self]
  rw [hfield]
  rfl

/-- Witness for C9: an optional int field `Port` with `PORT=abc` fails the
whole bind with the number-syntax coercion error. -/
theorem claim9_optionalMalformed_witness :
    goInitWith (.ptrT (.structT (.consF ⟨"Port", "optional", true⟩ .intT .nilF)))
        (.ptrV (some (.structV [zeroV .intT]))) "" (envOf [("PORT", "abc")]) =
      .err (.badNumber "abc") :=
  (claim9_optionalMalformed "Port" "optional" "" .intT (envOf [("PORT", "abc")])
    "abc" false (.badNumber "abc") rfl rfl rfl rfl (by decide) rfl).2

/-- C10: the unexported-field error is gated on a value actually being
obtained — a non-settable leaf field fails with the unexported-field error
only when the lookup produced a non-empty value; when the lookup itself
errs (a required field with no value) that lookup error is reported
instead; and an optional non-settable field with no value produces no
error at all. -/
theorem claim10_unexportedGated (t : Ty) (v : V) (ctx : Ctx) (env : GoEnv)
    (hns : ∀ elem, t ≠ Ty.sliceT elem) :
    (∀ s uD, readValue ctx env = .ok (s, uD) → s ≠ "" →
      setField t false v ctx env = .err .unexportedField) ∧
    (∀ e, readValue ctx env = .error e → setField t false v ctx env = .err e) ∧
    ((∀ k ∈ makeAllPossibleKeys ctx, getenv env k = "") → ctx.defaultVal = "" →
      ctx.optional = false →
      setField t false v ctx env = .err (.keyNotFound (makeAllPossibleKeys ctx))) ∧
    (readValue ctx env = .ok ("", false) → ctx.optional = true →
      setField t false v ctx env = .ok v) := by
  have conj2 : ∀ e, readValue ctx env = .error e → setField t false v ctx env = .err e := by
    intro e hrv
    simp only [setField, hrv]
  refine ⟨?_, conj2, ?_, ?_⟩
  · intro s uD hrv hs
    rw [setField_found _ _ _ _ _ hrv hs]
    cases t <;> first | exact absurd rfl (hns _) | rfl
  · intro hempty hd hopt
    apply conj2
    simp only [readValue]
    rw [firstNonEmpty_all_empty _ hempty]
    simp [hd, hopt]
  · intro hrv hopt
    simp only [setField, hrv]
    rw [if_pos ⟨rfl, hopt⟩]

/-- Witness for C10: a non-settable string field `Host` errs with the
unexported-field error only when `HOST` has a value; required and absent
it errs with key-not-found naming both probed keys; optional and absent it
is left untouched with no error. -/
theorem claim10_unexportedGated_witness :
    setField .strT false (.strV "") (Ctx.mk "Host" "" false "") (envOf [("HOST", "x")]) =
      .err .unexportedField ∧
    setField .strT false (.strV "") (Ctx.mk "Host" "" false "") (envOf []) =
      .err (.keyNotFound ["HOST", "host"]) ∧
    setField .strT false (.strV "z") (Ctx.mk "Host" "" true "") (envOf []) = .ok (.strV "z") :=
  ⟨(claim10_unexportedGated .strT (.strV "") (Ctx.mk "Host" "" false "")
      (envOf [("HOST", "x")]) (fun _ h => Ty.noConfusion h)).1 "x" false rfl (by decide),
    (claim10_unexportedGated .strT (.strV "") (Ctx.mk "Host" "" false "")
      (envOf []) (fun _ h => Ty.noConfusion h)).2.2.1 (by decide) rfl rfl,
    (claim10_unexportedGated .strT (.strV "z") (Ctx.mk "Host" "" true "")
      (envOf []) (fun _ h => Ty.noConfusion h)).2.2.2 rfl rfl⟩
